import Mathlib

/-!
# Shallow embedding of `src/brains/continuous_time_rnn.py`

The Python module implements a continuous-time recurrent neural network
controller.  We embed it over `ℚ` (an idealisation of IEEE floats that keeps
every definition computable); the elementwise nonlinearity `np.tanh` is an
abstract parameter `th : ℚ → ℚ`, since none of the verified properties depend
on the actual values of `tanh`, only on where it is applied.

Matrices are lists of rows (`Mat α`); a scipy CSR matrix built from a dense
boolean mask is embedded as the mask together with its `data` array, whose
entries correspond to the mask's `true` positions in row-major order (this is
exactly the CSR layout scipy produces from a dense array).  Fallible numpy
operations (slice assignment with broadcasting, `dot` with a dimension
mismatch, `np.zeros` of a negative size) return `Except String`.
-/

abbrev Mat (α : Type) := List (List α)

/-- `np.count_nonzero` of one row of a boolean matrix. -/
def countNonzeroRow (row : List Bool) : Nat := row.countP id

/-- `np.count_nonzero` of a boolean matrix. -/
def count_nonzero (m : Mat Bool) : Nat := (m.map countNonzeroRow).sum

/-- Number of rows of a matrix (`shape[0]`). -/
def rowsOf (m : Mat α) : Nat := m.length

/-- Number of columns of a matrix (`shape[1]`); numpy 2-D arrays are
rectangular, so the first row's length is the column count. -/
def colsOf (m : Mat α) : Nat := (m.headD []).length

/-- Rectangularity of a numpy 2-D array: every row has the common length. -/
def Rect (m : Mat α) : Prop := ∀ row ∈ m, row.length = colsOf m

/-- Entry `(i, j)` of a boolean mask (`false` outside the matrix). -/
def maskGet (m : Mat Bool) (i j : Nat) : Bool := (m.getD i []).getD j false

/-- Row-major rank of position `(i, j)` among the `true` entries of a mask:
the number of `true` entries strictly before `(i, j)` in row-major order.
This is the index of the corresponding value inside the CSR `data` array. -/
def rankOf (m : Mat Bool) (i j : Nat) : Nat :=
  ((m.take i).map countNonzeroRow).sum + ((m.getD i []).take j).countP id

/-- A scipy `csr_matrix` built from a dense boolean mask: the mask fixes the
nonzero structure, `data` holds the stored values in row-major order of the
mask's `true` positions. -/
structure CSRMat where
  mask : Mat Bool
  data : List ℚ
deriving Repr, DecidableEq

/-- Entry `(i, j)` of the matrix a CSR structure represents: the stored value
at the row-major rank of `(i, j)` when the mask is `true` there, else `0`. -/
def csrEntry (A : CSRMat) (i j : Nat) : ℚ :=
  if maskGet A.mask i j then A.data.getD (rankOf A.mask i j) 0 else 0

/-- One component of a CSR matrix–vector product:
`(A @ u) i = Σ_{j < cols} A[i,j] * u[j]`. -/
def dotRow (A : CSRMat) (i : Nat) (u : List ℚ) : ℚ :=
  ((List.range (colsOf A.mask)).map (fun j => csrEntry A i j * u.getD j 0)).sum

/-- `scipy.sparse.csr_matrix.dot` with a 1-D operand: raises a
`dimension mismatch` error unless the vector length equals the column count,
otherwise returns the matrix–vector product (one entry per row). -/
def csrDot (A : CSRMat) (u : List ℚ) : Except String (List ℚ) :=
  if u.length = colsOf A.mask then
    .ok ((List.range (rowsOf A.mask)).map (fun i => dotRow A i u))
  else .error "dimension mismatch"

/-- numpy broadcasting addition of two 1-D arrays: lengths must match or one
operand must have length 1 (which is then broadcast). -/
def npAdd (a b : List ℚ) : Except String (List ℚ) :=
  if a.length = b.length then .ok (List.zipWith (· + ·) a b)
  else if a.length = 1 then .ok (b.map (fun x => a.headD 0 + x))
  else if b.length = 1 then .ok (a.map (fun x => x + b.headD 0))
  else .error "operands could not be broadcast together"

/-- `np.clip(v, lo, hi)` on one scalar: `min(max(v, lo), hi)` (numpy's
documented equivalence `np.minimum(a_max, np.maximum(a, a_min))`). -/
def npClip (v lo hi : ℚ) : ℚ := min (max v lo) hi

/-- `np.zeros(n)` for an `int` argument: negative sizes raise. -/
def npZeros (n : Int) : Except String (List ℚ) :=
  if n < 0 then .error "negative dimensions are not allowed"
  else .ok (List.replicate n.toNat 0)

/-- Python slice `l[a:b]` (for `0 ≤ a ≤ b`, clamped to the list's length). -/
def pySlice (l : List ℚ) (a b : Nat) : List ℚ := (l.take b).drop a

/-- numpy slice assignment `target[:] = src` where `target` has `n` entries:
succeeds when the source length equals `n`, or is 1 (broadcast); any other
length raises a broadcast error. Returns the new contents of `target`. -/
def sliceAssign (n : Nat) (src : List ℚ) : Except String (List ℚ) :=
  if src.length = n then .ok src
  else if src.length = 1 then .ok (List.replicate n (src.headD 0))
  else .error "could not broadcast input array"

/-- The `attr.s` configuration class `ContinuousTimeRNNCfg`, with the source's
defaults.  `attrs` performs no range validation: the class only stores the
fields. -/
structure ContinuousTimeRNNCfg where
  type : String
  delta_t : ℚ
  number_neurons : Int
  v_mask : String := "dense"
  v_mask_density : ℚ := 1
  w_mask : String := "dense"
  w_mask_density : ℚ := 1
  t_mask : String := "dense"
  t_mask_density : ℚ := 1
  clipping_range_min : ℚ := 1
  clipping_range_max : ℚ := -1
deriving Repr, DecidableEq

/-- The brain state: a dict with the three boolean masks. -/
structure BrainState where
  v_mask : Mat Bool
  w_mask : Mat Bool
  t_mask : Mat Bool
deriving Repr, DecidableEq

/-- `ContinuousTimeRNN.get_masks_from_brain_state`. -/
def get_masks_from_brain_state (brain_state : BrainState) :
    Mat Bool × Mat Bool × Mat Bool :=
  (brain_state.v_mask, brain_state.w_mask, brain_state.t_mask)

/-- `ContinuousTimeRNN.get_brain_state_from_masks`. -/
def get_brain_state_from_masks (v_mask w_mask t_mask : Mat Bool) : BrainState :=
  { v_mask := v_mask, w_mask := w_mask, t_mask := t_mask }

/-- A constructed `ContinuousTimeRNN` instance. -/
structure ContinuousTimeRNN where
  config : ContinuousTimeRNNCfg
  V : CSRMat
  W : CSRMat
  T : CSRMat
  x : List ℚ
deriving Repr, DecidableEq

/-- `ContinuousTimeRNN.__init__`: extract the masks, build the three CSR
matrices from them, overwrite each `data` array with the corresponding genome
slice (`individual[0:v_size]`, `individual[v_size:v_size+w_size]`,
`individual[v_size+w_size:v_size+w_size+t_size]`) via numpy slice assignment,
then set `x = np.zeros(number_neurons)`.  No validation of the configuration
or of the genome length is performed beyond what those numpy operations
themselves raise. -/
def init (individual : List ℚ) (config : ContinuousTimeRNNCfg)
    (brain_state : BrainState) : Except String ContinuousTimeRNN := do
  let (v_mask, w_mask, t_mask) := get_masks_from_brain_state brain_state
  let v_size : Nat := count_nonzero v_mask
  let w_size : Nat := count_nonzero w_mask
  let t_size : Nat := count_nonzero t_mask
  let vData ← sliceAssign v_size (pySlice individual 0 v_size)
  let wData ← sliceAssign w_size (pySlice individual v_size (v_size + w_size))
  let tData ← sliceAssign t_size
    (pySlice individual (v_size + w_size) (v_size + w_size + t_size))
  let x0 ← npZeros config.number_neurons
  return { config := config
           V := { mask := v_mask, data := vData }
           W := { mask := w_mask, data := wData }
           T := { mask := t_mask, data := tData }
           x := x0 }

/-- `ContinuousTimeRNN.step`, parametrised by the elementwise nonlinearity
`th` (modelling `np.tanh`).  Mirrors the source line by line:
`dx_dt = W.dot(tanh(x)) + V.dot(u)`; `x = x + delta_t * dx_dt`;
`x = clip(x, min, max)`; `y = tanh(T.dot(x))`.  Returns the updated
controller together with `y`; on any numpy error nothing has been assigned to
`self.x`, so the controller is unchanged. -/
def step (th : ℚ → ℚ) (c : ContinuousTimeRNN) (u : List ℚ) :
    Except String (ContinuousTimeRNN × List ℚ) := do
  let wDot ← csrDot c.W (c.x.map th)
  let vDot ← csrDot c.V u
  let dx_dt ← npAdd wDot vDot
  let x1 ← npAdd c.x (dx_dt.map (fun d => c.config.delta_t * d))
  let x2 := x1.map (fun v =>
    npClip v c.config.clipping_range_min c.config.clipping_range_max)
  let tDot ← csrDot c.T x2
  let y := tDot.map th
  return ({ c with x := x2 }, y)

/-- `ContinuousTimeRNN.reset`: `self.x = np.zeros(self.config.number_neurons)`. -/
def reset (c : ContinuousTimeRNN) : Except String ContinuousTimeRNN := do
  let x0 ← npZeros c.config.number_neurons
  return { c with x := x0 }

/-- Elementwise `rand < density` on a matrix of uniform draws, giving a
boolean mask (`np.random.rand(n, m) < mask_density`). -/
def ltMat (rand : Mat ℚ) (density : ℚ) : Mat Bool :=
  rand.map (fun row => row.map (fun v => decide (v < density)))

/-- `np.ones((n, m), dtype=bool)`. -/
def onesMat (n m : Nat) : Mat Bool :=
  List.replicate n (List.replicate m true)

/-- Set the main diagonal of a boolean matrix to `true`
(`for i in range(n): mask[i,i] = True`). -/
def setDiag (m : Mat Bool) : Mat Bool :=
  m.mapIdx (fun i row => row.set i true)

/-- `ContinuousTimeRNN._generate_mask`.  The process-wide random source is
made explicit: `rand1` models the `np.random.rand(n, m)` draw inside the
`random` branch, `rand2` the draw in the `return` statement.  Note the
source's final line `return np.random.rand(n, m) < mask_density` discards the
`mask` computed above it (including the dense all-ones matrix and the forced
diagonal); the embedding reproduces that faithfully. -/
def generate_mask (mask_type : String) (n m : Nat) (mask_density : ℚ)
    (keep_main_diagonal : Bool) (rand1 rand2 : Mat ℚ) :
    Except String (Mat Bool) := do
  let mask ←
    if mask_type = "random" then pure (ltMat rand1 mask_density)
    else if mask_type = "dense" then pure (onesMat n m)
    else Except.error ("Unknown mask_type: " ++ mask_type)
  let _mask ←
    if keep_main_diagonal then
      if n = m then pure (setDiag mask) else Except.error "AssertionError"
    else pure mask
  return ltMat rand2 mask_density

/-- `ContinuousTimeRNN.save_brain_state`: `np.savez` writes the three boolean
arrays, losslessly, under the keys `v_mask`, `w_mask`, `t_mask`.  The file's
payload is exactly those three arrays. -/
def save_brain_state (brain_state : BrainState) : BrainState :=
  let (v_mask, w_mask, t_mask) := get_masks_from_brain_state brain_state
  { v_mask := v_mask, w_mask := w_mask, t_mask := t_mask }

/-- `ContinuousTimeRNN.load_brain_state`: `np.load` reads the three arrays
back by key and rebuilds the brain-state dict. -/
def load_brain_state (file_data : BrainState) : BrainState :=
  get_brain_state_from_masks file_data.v_mask file_data.w_mask file_data.t_mask

/-- `ContinuousTimeRNN.get_free_parameter_usage`: the dict
`{'V': ..., 'W': ..., 'T': ...}` of per-mask nonzero counts (as an ordered
association list). -/
def get_free_parameter_usage (brain_state : BrainState) :
    List (String × Nat) :=
  let (v_mask, w_mask, t_mask) := get_masks_from_brain_state brain_state
  [("V", count_nonzero v_mask), ("W", count_nonzero w_mask),
   ("T", count_nonzero t_mask)]

/-- `ContinuousTimeRNN.get_individual_size`: folds `+` over the values of
`get_free_parameter_usage`, starting from `0`. -/
def get_individual_size (brain_state : BrainState) : Nat :=
  ((get_free_parameter_usage brain_state).map Prod.snd).foldl (· + ·) 0

/-! ## General helper lemmas -/

theorem exceptBind_ok {α β : Type} {x : Except String α} {f : α → Except String β} {b : β} :
    (x >>= f) = .ok b ↔ ∃ a, x = .ok a ∧ f a = .ok b := by
  cases x <;> simp [Bind.bind, Except.bind]

theorem sliceAssign_ok_iff {n : Nat} {src : List ℚ} :
    (∃ d, sliceAssign n src = .ok d) ↔ (src.length = n ∨ src.length = 1) := by
  unfold sliceAssign
  by_cases h1 : src.length = n
  · simp [if_pos h1, h1]
  · by_cases h2 : src.length = 1
    · rw [if_neg h1, if_pos h2]
      simp [h1, h2]
    · rw [if_neg h1, if_neg h2]
      simp [h1, h2]

theorem npZeros_ok {n : Int} (h : 0 ≤ n) :
    npZeros n = .ok (List.replicate n.toNat 0) := by
  unfold npZeros
  simp [not_lt.mpr h]

/-- Inversion principle for successful construction: `init` succeeds exactly
when the three numpy slice assignments and the `np.zeros` allocation succeed,
and then the controller is built from their results. -/
theorem init_ok_iff (individual : List ℚ) (cfg : ContinuousTimeRNNCfg)
    (bs : BrainState) (c : ContinuousTimeRNN) :
    init individual cfg bs = .ok c ↔
    ∃ vData wData tData x0,
      sliceAssign (count_nonzero bs.v_mask)
        (pySlice individual 0 (count_nonzero bs.v_mask)) = .ok vData ∧
      sliceAssign (count_nonzero bs.w_mask)
        (pySlice individual (count_nonzero bs.v_mask)
          (count_nonzero bs.v_mask + count_nonzero bs.w_mask)) = .ok wData ∧
      sliceAssign (count_nonzero bs.t_mask)
        (pySlice individual (count_nonzero bs.v_mask + count_nonzero bs.w_mask)
          (count_nonzero bs.v_mask + count_nonzero bs.w_mask + count_nonzero bs.t_mask)) = .ok tData ∧
      npZeros cfg.number_neurons = .ok x0 ∧
      c = { config := cfg, V := ⟨bs.v_mask, vData⟩, W := ⟨bs.w_mask, wData⟩,
            T := ⟨bs.t_mask, tData⟩, x := x0 } := by
  unfold init
  simp only [get_masks_from_brain_state, exceptBind_ok, pure, Except.pure, Except.ok.injEq]
  constructor
  · rintro ⟨a, h1, b, h2, d, h3, e, h4, h5⟩
    exact ⟨a, b, d, e, h1, h2, h3, h4, h5.symm⟩
  · rintro ⟨a, b, d, e, h1, h2, h3, h4, h5⟩
    exact ⟨a, h1, b, h2, d, h3, e, h4, h5.symm⟩

/-- `true` iff construction succeeded. -/
def isOkCtor (e : Except String ContinuousTimeRNN) : Bool :=
  match e with
  | .ok _ => true
  | .error _ => false

/-! ## Concrete instances used by witnesses -/

/-- A concrete configuration with a positive timestep and two neurons. -/
def cfgTwo : ContinuousTimeRNNCfg :=
  { type := "CTRNN", delta_t := 1/10, number_neurons := 2,
    clipping_range_min := -1, clipping_range_max := 1 }

/-- The spec's hand-built dense example: 2 neurons, 1 input, 1 output. -/
def bsDense : BrainState :=
  { v_mask := [[true], [true]],
    w_mask := [[true, true], [true, true]],
    t_mask := [[true, true]] }

/-- The controller decoded from genome `[1,…,8]` on `bsDense`. -/
def ctrlDense : ContinuousTimeRNN :=
  { config := cfgTwo,
    V := ⟨[[true], [true]], [1, 2]⟩,
    W := ⟨[[true, true], [true, true]], [3, 4, 5, 6]⟩,
    T := ⟨[[true, true]], [7, 8]⟩,
    x := [0, 0] }

/-! ## Claims -/

/-- Claim C7: saving a brain state and loading it back returns a brain state
whose three mask matrices are element-wise equal to the original
(round-trip identity of the state codec). -/
theorem claim_C7_roundtrip (bs : BrainState) :
    load_brain_state (save_brain_state bs) = bs := rfl

/-- Claim C8: `get_individual_size` equals the sum of the three masks'
nonzero counts, and also equals the sum of the values of
`get_free_parameter_usage`, which maps `V`, `W`, `T` to the per-group
nonzero counts. -/
theorem claim_C8_individual_size (bs : BrainState) :
    get_individual_size bs =
      count_nonzero bs.v_mask + count_nonzero bs.w_mask + count_nonzero bs.t_mask ∧
    get_individual_size bs = ((get_free_parameter_usage bs).map Prod.snd).sum ∧
    get_free_parameter_usage bs =
      [("V", count_nonzero bs.v_mask), ("W", count_nonzero bs.w_mask),
       ("T", count_nonzero bs.t_mask)] := by
  refine ⟨?_, ?_, rfl⟩
  all_goals
    simp [get_individual_size, get_free_parameter_usage,
      get_masks_from_brain_state, List.foldl]
  ring

/-- Claim C1 (code bug): the claim states that a `dense` mask is all-`true`
regardless of density, but the source's `return np.random.rand(n, m) <
mask_density` discards the computed all-ones mask.  With density `0` the
returned comparison is deterministically all-`false` (uniform draws lie in
`[0, 1)`), so on input `mask_type = "dense"`, `n = m = 1`, `density = 0`
the code returns `[[false]]` where the claim requires `[[true]]`. -/
theorem claim_C1_dense_mask_bug :
    generate_mask "dense" 1 1 0 false [[0]] [[1/2]] = .ok [[false]] ∧
    generate_mask "dense" 1 1 0 false [[0]] [[1/2]] ≠ .ok [[true]] := by
  have h : generate_mask "dense" 1 1 0 false [[0]] [[1/2]] = .ok [[false]] := by
    unfold generate_mask
    norm_num [ltMat, Bind.bind, Except.bind, pure, Except.pure]
  refine ⟨h, ?_⟩
  rw [h]
  simp

/-- Claim C10: the hidden state is the zero vector of length `number_neurons`
immediately after construction, and `reset` returns it to that zero vector
regardless of any prior step history (any intervening value of `x`), leaving
`config`, `V`, `W`, `T` unchanged and never failing. -/
theorem claim_C10_reset (individual : List ℚ) (cfg : ContinuousTimeRNNCfg)
    (bs : BrainState) (c : ContinuousTimeRNN)
    (hok : init individual cfg bs = .ok c) :
    c.x = List.replicate cfg.number_neurons.toNat 0 ∧
    ∀ x' : List ℚ, reset { c with x := x' } =
      .ok { config := c.config, V := c.V, W := c.W, T := c.T,
            x := List.replicate cfg.number_neurons.toNat 0 } := by
  rw [init_ok_iff] at hok
  obtain ⟨vD, wD, tD, x0, _, _, _, h4, hc⟩ := hok
  have hn : ¬ cfg.number_neurons < 0 := by
    intro hneg
    unfold npZeros at h4
    rw [if_pos hneg] at h4
    exact Except.noConfusion h4
  have hx0 : x0 = List.replicate cfg.number_neurons.toNat 0 := by
    unfold npZeros at h4
    rw [if_neg hn] at h4
    exact (Except.ok.inj h4).symm
  subst hc
  refine ⟨hx0, fun x' => ?_⟩
  unfold reset npZeros
  simp [Bind.bind, Except.bind, pure, Except.pure, if_neg hn]

/-- Witness for C10 at the spec's dense two-neuron example. -/
theorem claim_C10_reset_witness :
    ctrlDense.x = List.replicate ((2 : Int)).toNat 0 ∧
    reset { ctrlDense with x := [5, 7] } =
      .ok { config := ctrlDense.config, V := ctrlDense.V, W := ctrlDense.W,
            T := ctrlDense.T, x := List.replicate ((2 : Int)).toNat 0 } := by
  have h := claim_C10_reset [1, 2, 3, 4, 5, 6, 7, 8] cfgTwo bsDense ctrlDense rfl
  exact ⟨h.1, h.2 [5, 7]⟩

theorem pySlice_take {l : List ℚ} {N a b : Nat} (h : b ≤ N) :
    pySlice (l.take N) a b = pySlice l a b := by
  simp [pySlice, List.take_take, Nat.min_eq_left h]

/-- Claim C4 (corrected): construction does not validate the genome length.
It succeeds exactly when each of the three numpy slice assignments succeeds,
i.e. when each slice of the genome has either exactly the mask's nonzero
count of elements or exactly one element (numpy broadcasting); and every
genome at least as long as the required total is accepted with the extra
values silently ignored (`init` only reads the first
`v_size + w_size + t_size` entries). -/
theorem claim_C4_amended (individual : List ℚ) (cfg : ContinuousTimeRNNCfg)
    (bs : BrainState) (hn : 0 ≤ cfg.number_neurons) :
    ((∃ c, init individual cfg bs = .ok c) ↔
      (((pySlice individual 0 (count_nonzero bs.v_mask)).length = count_nonzero bs.v_mask ∨
        (pySlice individual 0 (count_nonzero bs.v_mask)).length = 1) ∧
       ((pySlice individual (count_nonzero bs.v_mask)
          (count_nonzero bs.v_mask + count_nonzero bs.w_mask)).length = count_nonzero bs.w_mask ∨
        (pySlice individual (count_nonzero bs.v_mask)
          (count_nonzero bs.v_mask + count_nonzero bs.w_mask)).length = 1) ∧
       ((pySlice individual (count_nonzero bs.v_mask + count_nonzero bs.w_mask)
          (count_nonzero bs.v_mask + count_nonzero bs.w_mask + count_nonzero bs.t_mask)).length =
            count_nonzero bs.t_mask ∨
        (pySlice individual (count_nonzero bs.v_mask + count_nonzero bs.w_mask)
          (count_nonzero bs.v_mask + count_nonzero bs.w_mask + count_nonzero bs.t_mask)).length = 1))) ∧
    (count_nonzero bs.v_mask + count_nonzero bs.w_mask + count_nonzero bs.t_mask ≤
        individual.length →
      init individual cfg bs =
        init (individual.take
          (count_nonzero bs.v_mask + count_nonzero bs.w_mask + count_nonzero bs.t_mask)) cfg bs) := by
  constructor
  · constructor
    · rintro ⟨c, hc⟩
      rw [init_ok_iff] at hc
      obtain ⟨vD, wD, tD, x0, h1, h2, h3, _, _⟩ := hc
      exact ⟨sliceAssign_ok_iff.mp ⟨vD, h1⟩, sliceAssign_ok_iff.mp ⟨wD, h2⟩,
        sliceAssign_ok_iff.mp ⟨tD, h3⟩⟩
    · rintro ⟨hv, hw, ht⟩
      obtain ⟨d1, h1⟩ := sliceAssign_ok_iff.mpr hv
      obtain ⟨d2, h2⟩ := sliceAssign_ok_iff.mpr hw
      obtain ⟨d3, h3⟩ := sliceAssign_ok_iff.mpr ht
      exact ⟨_, (init_ok_iff _ _ _ _).mpr
        ⟨d1, d2, d3, _, h1, h2, h3, npZeros_ok hn, rfl⟩⟩
  · intro hlen
    unfold init
    simp only [get_masks_from_brain_state]
    rw [pySlice_take (by omega), pySlice_take (by omega), pySlice_take (by omega)]

/-- Witness for C4's amended statement: a 9-element genome on a brain state
requiring 8 parameters is accepted, and decodes like its 8-element prefix. -/
theorem claim_C4_witness :
    (∃ c, init [1, 2, 3, 4, 5, 6, 7, 8, 9] cfgTwo bsDense = .ok c) ∧
    init [1, 2, 3, 4, 5, 6, 7, 8, 9] cfgTwo bsDense =
      init [1, 2, 3, 4, 5, 6, 7, 8] cfgTwo bsDense := by
  have h := claim_C4_amended [1, 2, 3, 4, 5, 6, 7, 8, 9] cfgTwo bsDense (by decide)
  exact ⟨h.1.mpr ⟨by decide, by decide, by decide⟩, h.2 (by decide)⟩

/-- A brain state whose `t_mask` has two nonzero entries (total size 4). -/
def bsWide : BrainState :=
  { v_mask := [[true]], w_mask := [[true]], t_mask := [[true, true]] }

/-- Counterexample to claim C4 as stated: an over-long genome (9 values where
8 are required) is accepted with the tail silently ignored, and an
under-long genome (3 values where 4 are required) is accepted by numpy
broadcasting of the length-1 tail slice — construction does not fail on a
length mismatch. -/
theorem claim_C4_counterexample :
    isOkCtor (init [1, 2, 3, 4, 5, 6, 7, 8, 9] cfgTwo bsDense) = true ∧
    [(1 : ℚ), 2, 3, 4, 5, 6, 7, 8, 9].length ≠ get_individual_size bsDense ∧
    isOkCtor (init [1, 2, 3] cfgTwo bsWide) = true ∧
    [(1 : ℚ), 2, 3].length ≠ get_individual_size bsWide := by
  exact ⟨by decide, by decide, by decide, by decide⟩

/-- A configuration violating the claimed validations at once:
`delta_t = -1 ≤ 0` and the (default) degenerate clip range `1 > -1`. -/
def cfgBad : ContinuousTimeRNNCfg :=
  { type := "CTRNN", delta_t := -1, number_neurons := 2 }

/-- A configuration with `number_neurons = 0`. -/
def cfgZero : ContinuousTimeRNNCfg :=
  { type := "CTRNN", delta_t := 1, number_neurons := 0 }

/-- A configuration with negative `number_neurons`. -/
def cfgNeg : ContinuousTimeRNNCfg :=
  { type := "CTRNN", delta_t := 1, number_neurons := -1 }

/-- Counterexample to claim C5 as stated: a configuration with
`delta_t = -1 ≤ 0` and clip range `min = 1 > max = -1` (the source's own
defaults) is silently accepted at construction, as is `number_neurons = 0`;
no configuration error is raised. -/
theorem claim_C5_counterexample :
    cfgBad.delta_t ≤ 0 ∧
    cfgBad.clipping_range_max < cfgBad.clipping_range_min ∧
    isOkCtor (init [1, 2, 3, 4, 5, 6, 7, 8] cfgBad bsDense) = true ∧
    cfgZero.number_neurons ≤ 0 ∧
    isOkCtor (init [1, 2, 3, 4, 5, 6, 7, 8] cfgZero bsDense) = true := by
  exact ⟨by decide, by decide, by decide, by decide, by decide⟩

/-- Claim C5 (corrected): construction performs no validation of the
configuration.  For every configuration whatsoever — in particular any
`delta_t ≤ 0`, any `clipping_range_min > clipping_range_max`, and
`number_neurons = 0` — a genome of the exact required length is accepted;
the only configuration value that makes construction fail is a negative
`number_neurons`, and then the failure is numpy's error from allocating the
hidden state, not a configuration error. -/
theorem claim_C5_amended (individual : List ℚ) (cfg : ContinuousTimeRNNCfg)
    (bs : BrainState)
    (hlen : individual.length =
      count_nonzero bs.v_mask + count_nonzero bs.w_mask + count_nonzero bs.t_mask) :
    (0 ≤ cfg.number_neurons → ∃ c, init individual cfg bs = .ok c) ∧
    (cfg.number_neurons < 0 → ∃ e, init individual cfg bs = .error e) := by
  have hv : (pySlice individual 0 (count_nonzero bs.v_mask)).length =
      count_nonzero bs.v_mask := by
    simp [pySlice]
    omega
  have hw : (pySlice individual (count_nonzero bs.v_mask)
      (count_nonzero bs.v_mask + count_nonzero bs.w_mask)).length =
      count_nonzero bs.w_mask := by
    simp [pySlice]
    omega
  have ht : (pySlice individual (count_nonzero bs.v_mask + count_nonzero bs.w_mask)
      (count_nonzero bs.v_mask + count_nonzero bs.w_mask + count_nonzero bs.t_mask)).length =
      count_nonzero bs.t_mask := by
    simp [pySlice]
    omega
  constructor
  · intro hn
    obtain ⟨d1, h1⟩ := sliceAssign_ok_iff.mpr (Or.inl hv)
    obtain ⟨d2, h2⟩ := sliceAssign_ok_iff.mpr (Or.inl hw)
    obtain ⟨d3, h3⟩ := sliceAssign_ok_iff.mpr (Or.inl ht)
    exact ⟨_, (init_ok_iff _ _ _ _).mpr
      ⟨d1, d2, d3, _, h1, h2, h3, npZeros_ok hn, rfl⟩⟩
  · intro hn
    obtain ⟨d1, h1⟩ := sliceAssign_ok_iff.mpr (Or.inl hv)
    obtain ⟨d2, h2⟩ := sliceAssign_ok_iff.mpr (Or.inl hw)
    obtain ⟨d3, h3⟩ := sliceAssign_ok_iff.mpr (Or.inl ht)
    refine ⟨"negative dimensions are not allowed", ?_⟩
    unfold init
    simp only [get_masks_from_brain_state, h1, h2, h3, Bind.bind, Except.bind]
    unfold npZeros
    rw [if_pos hn]

/-- Witness for C5's amended statement: the degenerate configuration
`cfgBad` is accepted with an exact-length genome, and `cfgNeg`
(`number_neurons = -1`) fails with a numpy allocation error. -/
theorem claim_C5_witness :
    (∃ c, init [1, 2, 3, 4, 5, 6, 7, 8] cfgBad bsDense = .ok c) ∧
    (∃ e, init [1, 2, 3, 4, 5, 6, 7, 8] cfgNeg bsDense = .error e) := by
  exact ⟨(claim_C5_amended [1, 2, 3, 4, 5, 6, 7, 8] cfgBad bsDense (by decide)).1 (by decide),
         (claim_C5_amended [1, 2, 3, 4, 5, 6, 7, 8] cfgNeg bsDense (by decide)).2 (by decide)⟩

/-! ## Row-major rank of a mask position -/

theorem rank_lt_count {m : Mat Bool} {i j : Nat} (h : maskGet m i j = true) :
    rankOf m i j < count_nonzero m := by
  have hi : i < m.length := by
    by_contra hc
    push_neg at hc
    unfold maskGet at h
    rw [List.getD_eq_default _ _ hc] at h
    simp [List.getD] at h
  have hrow : m.getD i [] = m[i] := List.getD_eq_getElem _ _ hi
  have hj : j < m[i].length := by
    by_contra hc
    push_neg at hc
    unfold maskGet at h
    rw [hrow, List.getD_eq_default _ _ hc] at h
    exact Bool.noConfusion h
  have hjt : m[i][j] = true := by
    unfold maskGet at h
    rw [hrow, List.getD_eq_getElem _ _ hj] at h
    exact h
  have hcount : (m[i].take j).countP id < countNonzeroRow m[i] := by
    unfold countNonzeroRow
    conv_rhs => rw [← List.take_append_drop j m[i]]
    rw [List.countP_append, List.drop_eq_getElem_cons hj, List.countP_cons]
    simp [hjt]
  unfold rankOf count_nonzero
  rw [hrow]
  conv_rhs => rw [← List.take_append_drop i m]
  rw [List.map_append, List.sum_append, List.drop_eq_getElem_cons hi]
  simp only [List.map_cons, List.sum_cons]
  omega

theorem slice_getD {l : List ℚ} {a b r : Nat} (h : a + r < b) :
    ((l.take b).drop a).getD r 0 = l.getD (a + r) 0 := by
  rw [List.getD_eq_getElem?_getD, List.getD_eq_getElem?_getD,
    List.getElem?_drop, List.getElem?_take, if_pos h]

theorem sliceAssign_full {n : Nat} {src : List ℚ} (h : src.length = n) :
    sliceAssign n src = .ok src := by
  simp [sliceAssign, h]

/-- Claim C3: for a genome of exactly the required length, construction
assigns the first `v_size` genome values to `V`'s nonzero positions, the
next `w_size` to `W`'s, and the last `t_size` to `T`'s, each group filled in
row-major order of its mask's `true` positions (the CSR data order), with the
three index spans contiguous and non-overlapping: position `(i, j)` of `V`
reads genome index `rank`, of `W` reads `v_size + rank`, of `T` reads
`v_size + w_size + rank`, where `rank` is the row-major rank of `(i, j)`
among the mask's `true` entries, and each index stays inside its span. -/
theorem claim_C3_decoder (individual : List ℚ) (cfg : ContinuousTimeRNNCfg)
    (bs : BrainState) (c : ContinuousTimeRNN)
    (hlen : individual.length =
      count_nonzero bs.v_mask + count_nonzero bs.w_mask + count_nonzero bs.t_mask)
    (hok : init individual cfg bs = .ok c) :
    (∀ i j, maskGet bs.v_mask i j = true →
      rankOf bs.v_mask i j < count_nonzero bs.v_mask ∧
      csrEntry c.V i j = individual.getD (rankOf bs.v_mask i j) 0) ∧
    (∀ i j, maskGet bs.w_mask i j = true →
      count_nonzero bs.v_mask + rankOf bs.w_mask i j <
        count_nonzero bs.v_mask + count_nonzero bs.w_mask ∧
      csrEntry c.W i j =
        individual.getD (count_nonzero bs.v_mask + rankOf bs.w_mask i j) 0) ∧
    (∀ i j, maskGet bs.t_mask i j = true →
      count_nonzero bs.v_mask + count_nonzero bs.w_mask + rankOf bs.t_mask i j <
        count_nonzero bs.v_mask + count_nonzero bs.w_mask + count_nonzero bs.t_mask ∧
      csrEntry c.T i j =
        individual.getD
          (count_nonzero bs.v_mask + count_nonzero bs.w_mask + rankOf bs.t_mask i j) 0) := by
  rw [init_ok_iff] at hok
  obtain ⟨vD, wD, tD, x0, h1, h2, h3, h4, hc⟩ := hok
  have hv : (pySlice individual 0 (count_nonzero bs.v_mask)).length =
      count_nonzero bs.v_mask := by
    simp [pySlice]
    omega
  have hw : (pySlice individual (count_nonzero bs.v_mask)
      (count_nonzero bs.v_mask + count_nonzero bs.w_mask)).length =
      count_nonzero bs.w_mask := by
    simp [pySlice]
    omega
  have ht : (pySlice individual (count_nonzero bs.v_mask + count_nonzero bs.w_mask)
      (count_nonzero bs.v_mask + count_nonzero bs.w_mask + count_nonzero bs.t_mask)).length =
      count_nonzero bs.t_mask := by
    simp [pySlice]
    omega
  rw [sliceAssign_full hv] at h1
  rw [sliceAssign_full hw] at h2
  rw [sliceAssign_full ht] at h3
  have e1 : vD = pySlice individual 0 (count_nonzero bs.v_mask) :=
    (Except.ok.inj h1).symm
  have e2 : wD = pySlice individual (count_nonzero bs.v_mask)
      (count_nonzero bs.v_mask + count_nonzero bs.w_mask) :=
    (Except.ok.inj h2).symm
  have e3 : tD = pySlice individual (count_nonzero bs.v_mask + count_nonzero bs.w_mask)
      (count_nonzero bs.v_mask + count_nonzero bs.w_mask + count_nonzero bs.t_mask) :=
    (Except.ok.inj h3).symm
  subst hc
  refine ⟨fun i j hm => ?_, fun i j hm => ?_, fun i j hm => ?_⟩
  · have hr := rank_lt_count hm
    refine ⟨hr, ?_⟩
    show (if maskGet bs.v_mask i j then vD.getD (rankOf bs.v_mask i j) 0 else 0) = _
    rw [if_pos hm, e1]
    unfold pySlice
    have := slice_getD (l := individual) (a := 0)
      (b := count_nonzero bs.v_mask) (r := rankOf bs.v_mask i j) (by omega)
    simpa using this
  · have hr := rank_lt_count hm
    refine ⟨by omega, ?_⟩
    show (if maskGet bs.w_mask i j then wD.getD (rankOf bs.w_mask i j) 0 else 0) = _
    rw [if_pos hm, e2]
    unfold pySlice
    exact slice_getD (by omega)
  · have hr := rank_lt_count hm
    refine ⟨by omega, ?_⟩
    show (if maskGet bs.t_mask i j then tD.getD (rankOf bs.t_mask i j) 0 else 0) = _
    rw [if_pos hm, e3]
    unfold pySlice
    exact slice_getD (by omega)

/-- Witness for C3 at the spec's dense two-neuron example: entry `(1, 0)` of
`W` reads genome index `v_size + rank = 2 + 2`, inside `W`'s span. -/
theorem claim_C3_witness :
    count_nonzero bsDense.v_mask + rankOf bsDense.w_mask 1 0 <
      count_nonzero bsDense.v_mask + count_nonzero bsDense.w_mask ∧
    csrEntry ctrlDense.W 1 0 =
      [(1 : ℚ), 2, 3, 4, 5, 6, 7, 8].getD
        (count_nonzero bsDense.v_mask + rankOf bsDense.w_mask 1 0) 0 := by
  exact (claim_C3_decoder [1, 2, 3, 4, 5, 6, 7, 8] cfgTwo bsDense ctrlDense
    (by decide) rfl).2.1 1 0 (by decide)

/-! ## The intermediate vectors computed by `step` -/

/-- `W.dot(np.tanh(x))` as computed by a successful `step`. -/
def lwTerm (th : ℚ → ℚ) (c : ContinuousTimeRNN) : List ℚ :=
  (List.range c.x.length).map (fun i => dotRow c.W i (c.x.map th))

/-- `V.dot(u)` as computed by a successful `step`. -/
def lvTerm (c : ContinuousTimeRNN) (u : List ℚ) : List ℚ :=
  (List.range c.x.length).map (fun i => dotRow c.V i u)

/-- `dx_dt` as computed by a successful `step`. -/
def dxTerm (th : ℚ → ℚ) (c : ContinuousTimeRNN) (u : List ℚ) : List ℚ :=
  List.zipWith (· + ·) (lwTerm th c) (lvTerm c u)

/-- `x + delta_t * dx_dt` (Euler forward step) as computed by `step`. -/
def x1Term (th : ℚ → ℚ) (c : ContinuousTimeRNN) (u : List ℚ) : List ℚ :=
  List.zipWith (· + ·) c.x ((dxTerm th c u).map (fun d => c.config.delta_t * d))

/-- The clipped new hidden state computed by `step`. -/
def x2Term (th : ℚ → ℚ) (c : ContinuousTimeRNN) (u : List ℚ) : List ℚ :=
  (x1Term th c u).map (fun v =>
    npClip v c.config.clipping_range_min c.config.clipping_range_max)

/-- The output `y = tanh(T.dot(x))` computed by `step` from the clipped
state. -/
def yTerm (th : ℚ → ℚ) (c : ContinuousTimeRNN) (u : List ℚ) : List ℚ :=
  ((List.range c.T.mask.length).map (fun i => dotRow c.T i (x2Term th c u))).map th

@[simp] theorem lwTerm_length (th : ℚ → ℚ) (c : ContinuousTimeRNN) :
    (lwTerm th c).length = c.x.length := by simp [lwTerm]

@[simp] theorem lvTerm_length (c : ContinuousTimeRNN) (u : List ℚ) :
    (lvTerm c u).length = c.x.length := by simp [lvTerm]

@[simp] theorem dxTerm_length (th : ℚ → ℚ) (c : ContinuousTimeRNN) (u : List ℚ) :
    (dxTerm th c u).length = c.x.length := by simp [dxTerm]

@[simp] theorem x1Term_length (th : ℚ → ℚ) (c : ContinuousTimeRNN) (u : List ℚ) :
    (x1Term th c u).length = c.x.length := by simp [x1Term]

@[simp] theorem x2Term_length (th : ℚ → ℚ) (c : ContinuousTimeRNN) (u : List ℚ) :
    (x2Term th c u).length = c.x.length := by simp [x2Term]

@[simp] theorem yTerm_length (th : ℚ → ℚ) (c : ContinuousTimeRNN) (u : List ℚ) :
    (yTerm th c u).length = c.T.mask.length := by simp [yTerm]

theorem getD_map {l : List ℚ} {f : ℚ → ℚ} {i : Nat} (h : i < l.length) :
    (l.map f).getD i 0 = f (l.getD i 0) := by
  rw [List.getD_eq_getElem _ _ (by simpa using h), List.getD_eq_getElem _ _ h]
  simp

theorem getD_range_map {n i : Nat} {f : Nat → ℚ} (h : i < n) :
    ((List.range n).map f).getD i 0 = f i := by
  rw [List.getD_eq_getElem _ _ (by simpa using h)]
  simp

theorem getD_zipWith {a b : List ℚ} {i : Nat} (ha : i < a.length) (hb : i < b.length) :
    (List.zipWith (· + ·) a b).getD i 0 = a.getD i 0 + b.getD i 0 := by
  rw [List.getD_eq_getElem _ _ (by simp; omega), List.getD_eq_getElem _ _ ha,
    List.getD_eq_getElem _ _ hb]
  simp

theorem getD_replicate {n i : Nat} {a : ℚ} (h : i < n) :
    (List.replicate n a).getD i 0 = a := by
  rw [List.getD_eq_getElem _ _ (by simpa using h)]
  simp

/-- When all the shapes agree (square `W` over the hidden state, `V` matching
the input, `T` consuming the hidden state), `step` succeeds and returns the
controller with the clipped Euler update as new hidden state, everything else
unchanged, together with the output vector. -/
theorem step_ok_of_shapes (th : ℚ → ℚ) (c : ContinuousTimeRNN) (u : List ℚ)
    (hWr : c.W.mask.length = c.x.length)
    (hWc : colsOf c.W.mask = c.x.length)
    (hVr : c.V.mask.length = c.x.length)
    (hVc : colsOf c.V.mask = u.length)
    (hTc : colsOf c.T.mask = c.x.length) :
    step th c u = .ok ({ c with x := x2Term th c u }, yTerm th c u) := by
  have eW : csrDot c.W (c.x.map th) = .ok (lwTerm th c) := by
    unfold csrDot rowsOf lwTerm
    rw [if_pos (by simp [hWc]), hWr]
  have eV : csrDot c.V u = .ok (lvTerm c u) := by
    unfold csrDot rowsOf lvTerm
    rw [if_pos hVc.symm, hVr]
  have eA1 : npAdd (lwTerm th c) (lvTerm c u) = .ok (dxTerm th c u) := by
    unfold npAdd dxTerm
    rw [if_pos (by simp)]
  have eA2 : npAdd c.x ((dxTerm th c u).map (fun d => c.config.delta_t * d)) =
      .ok (x1Term th c u) := by
    unfold npAdd x1Term
    rw [if_pos (by simp)]
  have eT : csrDot c.T ((x1Term th c u).map (fun v =>
      npClip v c.config.clipping_range_min c.config.clipping_range_max)) =
      .ok ((List.range c.T.mask.length).map (fun i => dotRow c.T i (x2Term th c u))) := by
    unfold csrDot rowsOf
    rw [if_pos (by rw [← x2Term]; simp [hTc])]
    rw [← x2Term]
  simp only [step, eW, Bind.bind, Except.bind, eV, eA1, eA2, eT, yTerm,
    pure, Except.pure]
  rw [← x2Term]

theorem x2Term_getD (th : ℚ → ℚ) (c : ContinuousTimeRNN) (u : List ℚ) {i : Nat}
    (h : i < c.x.length) :
    (x2Term th c u).getD i 0 =
      npClip (c.x.getD i 0 + c.config.delta_t *
        (dotRow c.W i (c.x.map th) + dotRow c.V i u))
        c.config.clipping_range_min c.config.clipping_range_max := by
  unfold x2Term
  rw [getD_map (by rw [x1Term_length]; exact h)]
  congr 1
  unfold x1Term
  rw [getD_zipWith h (by simp [h])]
  congr 1
  rw [getD_map (by simp [h])]
  congr 1
  unfold dxTerm
  rw [getD_zipWith (by simp [h]) (by simp [h])]
  unfold lwTerm lvTerm
  rw [getD_range_map h, getD_range_map h]

theorem yTerm_getD (th : ℚ → ℚ) (c : ContinuousTimeRNN) (u : List ℚ) {i : Nat}
    (h : i < c.T.mask.length) :
    (yTerm th c u).getD i 0 = th (dotRow c.T i (x2Term th c u)) := by
  unfold yTerm
  rw [getD_map (by simp [h]), getD_range_map h]

/-- Claim C2: one call to `step`, on a controller whose shapes agree, computes
`dx/dt = W · tanh(x) + V · u` with the nonlinearity applied elementwise to
the pre-update hidden state, updates `x` to `x + delta_t · dx/dt`, clips
every component to `[clipping_range_min, clipping_range_max]`, and returns
`y = tanh(T · x)` computed from the clipped state; the matrices and the
configuration are unchanged. -/
theorem claim_C2_step (th : ℚ → ℚ) (c : ContinuousTimeRNN) (u : List ℚ)
    (hWr : c.W.mask.length = c.x.length)
    (hWc : colsOf c.W.mask = c.x.length)
    (hVr : c.V.mask.length = c.x.length)
    (hVc : colsOf c.V.mask = u.length)
    (hTc : colsOf c.T.mask = c.x.length) :
    ∃ c' y, step th c u = .ok (c', y) ∧
      c'.config = c.config ∧ c'.V = c.V ∧ c'.W = c.W ∧ c'.T = c.T ∧
      c'.x.length = c.x.length ∧
      (∀ i, i < c.x.length →
        c'.x.getD i 0 =
          npClip (c.x.getD i 0 + c.config.delta_t *
            (((List.range c.x.length).map
                (fun j => csrEntry c.W i j * th (c.x.getD j 0))).sum +
             ((List.range u.length).map
                (fun j => csrEntry c.V i j * u.getD j 0)).sum))
            c.config.clipping_range_min c.config.clipping_range_max) ∧
      y.length = c.T.mask.length ∧
      (∀ i, i < c.T.mask.length →
        y.getD i 0 =
          th (((List.range c.x.length).map
            (fun j => csrEntry c.T i j * c'.x.getD j 0)).sum)) := by
  refine ⟨{ c with x := x2Term th c u }, yTerm th c u,
    step_ok_of_shapes th c u hWr hWc hVr hVc hTc, rfl, rfl, rfl, rfl, by simp,
    ?_, by simp, ?_⟩
  · intro i hi
    show (x2Term th c u).getD i 0 = _
    rw [x2Term_getD th c u hi]
    have e1 : dotRow c.W i (c.x.map th) =
        ((List.range c.x.length).map
          (fun j => csrEntry c.W i j * th (c.x.getD j 0))).sum := by
      unfold dotRow
      rw [hWc]
      congr 1
      apply List.map_congr_left
      intro j hj
      rw [getD_map (List.mem_range.mp hj)]
    have e2 : dotRow c.V i u =
        ((List.range u.length).map
          (fun j => csrEntry c.V i j * u.getD j 0)).sum := by
      unfold dotRow
      rw [hVc]
    rw [e1, e2]
  · intro i hi
    show (yTerm th c u).getD i 0 = _
    rw [yTerm_getD th c u hi]
    congr 1
    unfold dotRow
    rw [hTc]

/-- Witness for C2 at the dense two-neuron example with input `[1]` and the
identity in place of `tanh`. -/
theorem claim_C2_witness :
    ∃ c' y, step id ctrlDense [1] = .ok (c', y) ∧
      c'.config = ctrlDense.config ∧ c'.V = ctrlDense.V ∧
      c'.W = ctrlDense.W ∧ c'.T = ctrlDense.T ∧
      c'.x.length = ctrlDense.x.length := by
  obtain ⟨c', y, h1, h2, h3, h4, h5, h6, -⟩ :=
    claim_C2_step id ctrlDense [1] (by decide) (by decide) (by decide)
      (by decide) (by decide)
  exact ⟨c', y, h1, h2, h3, h4, h5, h6⟩

/-- Claim C6: with a degenerate clip range (`min > max`, as with the source's
defaults `min = 1`, `max = -1`), `step` does not raise on the clamp: after
the call every component of the hidden state equals `clipping_range_max`
(for every prior state and every input of the right shape), so the output is
`tanh(T · c)` with `c` the constant vector `clipping_range_max`. -/
theorem claim_C6_degenerate_clip (th : ℚ → ℚ) (c : ContinuousTimeRNN) (u : List ℚ)
    (hWr : c.W.mask.length = c.x.length)
    (hWc : colsOf c.W.mask = c.x.length)
    (hVr : c.V.mask.length = c.x.length)
    (hVc : colsOf c.V.mask = u.length)
    (hTc : colsOf c.T.mask = c.x.length)
    (hclip : c.config.clipping_range_max < c.config.clipping_range_min) :
    ∃ y, step th c u =
      .ok ({ c with
        x := List.replicate c.x.length c.config.clipping_range_max }, y) ∧
      y.length = c.T.mask.length ∧
      ∀ i, i < c.T.mask.length →
        y.getD i 0 = th (((List.range c.x.length).map
          (fun j => csrEntry c.T i j * c.config.clipping_range_max)).sum) := by
  have hx2 : x2Term th c u =
      List.replicate c.x.length c.config.clipping_range_max := by
    apply List.eq_replicate_iff.mpr
    refine ⟨by simp, ?_⟩
    intro b hb
    unfold x2Term at hb
    obtain ⟨v, -, rfl⟩ := List.mem_map.mp hb
    unfold npClip
    exact min_eq_right (le_trans (le_of_lt hclip) (le_max_right v _))
  refine ⟨yTerm th c u, ?_, by simp, ?_⟩
  · have h := step_ok_of_shapes th c u hWr hWc hVr hVc hTc
    rw [hx2] at h
    exact h
  · intro i hi
    rw [yTerm_getD th c u hi]
    congr 1
    unfold dotRow
    rw [hTc]
    congr 1
    apply List.map_congr_left
    intro j hj
    rw [hx2, getD_replicate (List.mem_range.mp hj)]

/-- A controller carrying the source's degenerate default clip range
(`min = 1 > max = -1`) and a non-trivial prior hidden state. -/
def ctrlClip : ContinuousTimeRNN :=
  { config := cfgBad,
    V := ⟨[[true], [true]], [1, 2]⟩,
    W := ⟨[[true, true], [true, true]], [3, 4, 5, 6]⟩,
    T := ⟨[[true, true]], [7, 8]⟩,
    x := [3, 5] }

/-- Witness for C6: with the default inverted clip range every hidden
component collapses to `clipping_range_max = -1` after one step. -/
theorem claim_C6_witness :
    ∃ y, step id ctrlClip [2] =
      .ok ({ ctrlClip with
        x := List.replicate ctrlClip.x.length
          ctrlClip.config.clipping_range_max }, y) := by
  obtain ⟨y, h, -, -⟩ := claim_C6_degenerate_clip id ctrlClip [2]
    (by decide) (by decide) (by decide) (by decide) (by decide) (by decide)
  exact ⟨y, h⟩

/-- Claim C9: `step` with an input vector whose length differs from `V`'s
column count fails with an explicit error (scipy's dimension mismatch) and
never returns a result; since the embedding of `step` assigns the new hidden
state only in the success branch — mirroring the source, where the exception
is raised while computing `dx_dt`, before any assignment to `self.x` — the
hidden state and the matrices are unchanged by the failing call. -/
theorem claim_C9_shape_mismatch (th : ℚ → ℚ) (c : ContinuousTimeRNN) (u : List ℚ)
    (hu : u.length ≠ colsOf c.V.mask) :
    ∃ e, step th c u = .error e ∧ ∀ r, step th c u ≠ .ok r := by
  have hV : csrDot c.V u = .error "dimension mismatch" := by
    unfold csrDot
    rw [if_neg hu]
  have herr : ∃ e, step th c u = .error e := by
    cases hW : csrDot c.W (c.x.map th) with
    | error e => exact ⟨e, by simp only [step, hW, Bind.bind, Except.bind]⟩
    | ok lw =>
      exact ⟨"dimension mismatch",
        by simp only [step, hW, Bind.bind, Except.bind, hV]⟩
  obtain ⟨e, he⟩ := herr
  refine ⟨e, he, fun r hr => ?_⟩
  rw [he] at hr
  exact Except.noConfusion hr

/-- Witness for C9: a length-2 input against a `V` with one column fails. -/
theorem claim_C9_witness :
    ∃ e, step id ctrlDense [1, 1] = .error e ∧
      ∀ r, step id ctrlDense [1, 1] ≠ .ok r :=
  claim_C9_shape_mismatch id ctrlDense [1, 1] (by decide)
